import Mathlib

/-!
Shallow embedding of the anonymous-chat pairing bot (models.py / utils.py /
db.py / bot.py) and proofs of the specified properties.

Modelling conventions:
* A database row of table `users` is a `DbUser`; the whole table is a
  `List DbUser`, together with the autoincrement counter `nextId` (primary
  keys are assigned 1, 2, 3, …).
* Timestamps (`updated_at`) are natural numbers.  SQLAlchemy's
  `onupdate=now` fires exactly when a row is written by an UPDATE at
  commit time, so every handler bumps `updated_at` on the rows whose
  fields it net-changes and leaves it alone otherwise (in particular the
  rollback path of `find` commits no net change at all, hence no bump).
* `context.user_data["await_region"]` is per-chat ephemeral state; we keep
  the set of chat ids whose flag is currently true in `BotState.awaitRegion`.
* Outbound `bot.send_message` calls can fail; each event carries a boolean
  delivery oracle.  `query.message.reply_text` replies to the requester are
  assumed delivered (the source never guards them).
* The list of `Msg` returned by a handler is the list of texts it delivers,
  in program order, each with the inline menu it carried (if any).
* Session lifecycle.  `SessionLocal` keeps SQLAlchemy's default
  `expire_on_commit=True`, and `get_user` returns its ORM instance from
  inside `session_scope`, whose exit commits (expiring every loaded
  attribute) and closes (detaching the instance).  Any later column
  access on that detached, expired instance raises DetachedInstanceError.
  Consequently the real `cmd_start` (at `user.region`), the `setregion`
  branch (at `user.premium`) and `on_text` (at `user.premium` or
  `user.partner_id`) raise before sending anything, while the find, stop
  and next branches are unaffected: they touch `user` only through
  `s.merge(user)`, which re-attaches by identity key without reading the
  expired attributes.  Two models are therefore given: `step` embeds the
  handlers' written control flow (its per-event state effect on stores of
  non-premium users coincides with the real one, so it drives the state
  invariants), and `run` embeds what actually executes: the committed
  state at completion or raise time, the messages actually delivered by
  then, and whether DetachedInstanceError was raised.
-/

namespace AnonBot

/-- A row of the `users` table (models.py `User`). -/
structure DbUser where
  id : Nat
  telegram_id : Nat
  region : String
  premium : Bool
  partner_id : Option Nat
  updated_at : Nat
deriving Repr, DecidableEq

/-- utils.py `LANG_REGION_MAP`. -/
def LANG_REGION_MAP : List (String × String) :=
  [("id", "Asia"), ("ms", "Asia"), ("zh", "Asia"), ("ja", "Asia"),
   ("en", "NorthAmerica"), ("en-US", "NorthAmerica"), ("en-GB", "Europe"),
   ("es", "SouthAmerica"), ("es-ES", "Europe"), ("pt-BR", "SouthAmerica"),
   ("fr", "Europe"), ("de", "Europe"), ("ru", "Europe")]

/-- Python `LANG_REGION_MAP.get(k)`. -/
def langLookup (k : String) : Option String :=
  (LANG_REGION_MAP.find? (fun kv => kv.1 == k)).map (fun kv => kv.2)

/-- utils.py `CONTINENTS`. -/
def CONTINENTS : List String :=
  ["Africa", "Asia", "Europe", "NorthAmerica", "SouthAmerica", "Oceania"]

/-- Python `language_code.split("-")[0]`: the characters of the hint up
to (excluding) the first `-`; the whole hint when there is no `-`. -/
def primarySubtag (c : String) : String :=
  String.mk (c.data.takeWhile (fun ch => ch != '-'))

/-- utils.py `infer_region`.  `not language_code` is Python truthiness:
it holds for `None` and for the empty string. -/
def infer_region (language_code : Option String) : String :=
  match language_code with
  | none => "Europe"
  | some c =>
    if c = "" then "Europe"
    else (langLookup c).getD ((langLookup (primarySubtag c)).getD "Europe")

/-- An inline-keyboard button: label and callback data (or url). -/
abbrev Button := String × String

/-- utils.py `main_menu`. -/
def main_menu (premium : Bool) : List (List Button) :=
  [[("🟢 Find Partner", "find")],
   [("🔄 Next Partner", "next")],
   [("🔴 Stop Chat", "stop")]] ++
  (if premium then [[("🌍 Set Region", "setregion")]] else []) ++
  [[("🧩 Mini App", "https://example.com")]]

/-- A delivered outbound message: recipient chat id (dest), text, optional menu. -/
structure Msg where
  dest : Nat
  text : String
  menu : Option (List (List Button)) := none
deriving Repr, DecidableEq

/-- The bot's global state: the `users` table, the autoincrement counter,
and the set of chats whose `await_region` flag is set. -/
structure BotState where
  users : List DbUser
  nextId : Nat
  awaitRegion : List Nat
deriving Repr, DecidableEq

/-- Python truthiness of an optional integer (`if me.partner_id:`):
`None` and `0` are falsy. -/
def truthy : Option Nat → Bool
  | none => false
  | some n => n != 0

/-- Query `SELECT * FROM users WHERE telegram_id = tg` (first match). -/
def findByTg (st : List DbUser) (tg : Nat) : Option DbUser :=
  st.find? (fun u => u.telegram_id == tg)

/-- Query `s.query(User).get(uid)`: look a row up by primary key. -/
def findById (st : List DbUser) (uid : Nat) : Option DbUser :=
  st.find? (fun u => u.id == uid)

/-- Row transformer of an UPDATE of `partner_id` on primary key `uid`
(with the `onupdate` bump of `updated_at`). -/
def spRow (uid : Nat) (p : Option Nat) (now : Nat) (u : DbUser) : DbUser :=
  if u.id == uid then { u with partner_id := p, updated_at := now } else u

/-- UPDATE `partner_id` of the row with primary key `uid`. -/
def setPartner (st : List DbUser) (uid : Nat) (p : Option Nat) (now : Nat) : List DbUser :=
  st.map (spRow uid p now)

/-- Row transformer of an UPDATE of `region` on primary key `uid`. -/
def srRow (uid : Nat) (r : String) (now : Nat) (u : DbUser) : DbUser :=
  if u.id == uid then { u with region := r, updated_at := now } else u

/-- UPDATE `region` of the row with primary key `uid`. -/
def setRegion (st : List DbUser) (uid : Nat) (r : String) (now : Nat) : List DbUser :=
  st.map (srRow uid r now)

/-- bot.py `get_user`: read the user by telegram id; if absent, insert a
fresh row with `region = infer_region(language_code)`, `premium = False`
and no partner, and return it. -/
def get_user (bs : BotState) (tg : Nat) (lang : Option String) (now : Nat) :
    BotState × DbUser :=
  match findByTg bs.users tg with
  | some u => (bs, u)
  | none =>
    let u : DbUser :=
      { id := bs.nextId, telegram_id := tg, region := infer_region lang,
        premium := false, partner_id := none, updated_at := now }
    ({ bs with users := bs.users ++ [u], nextId := bs.nextId + 1 }, u)

/-- src/utils.py `get_or_create_user`: the older copy of the helper; it
stores the raw locale hint as the region (`"global"` when the hint is
falsy) instead of running it through `infer_region`. -/
def get_or_create_user (st : List DbUser) (nextId : Nat) (tg : Nat)
    (lang : Option String) (now : Nat) : List DbUser × Nat × DbUser :=
  match findByTg st tg with
  | some u => (st, nextId, u)
  | none =>
    let region := match lang with
      | none => "global"
      | some c => if c = "" then "global" else c
    let u : DbUser :=
      { id := nextId, telegram_id := tg, region := region,
        premium := false, partner_id := none, updated_at := now }
    (st ++ [u], nextId + 1, u)

/-- The candidate pool of the `find` query: users with no partner, a
different telegram id, and the requester's region. -/
def eligible (st : List DbUser) (me : DbUser) : List DbUser :=
  st.filter (fun u =>
    u.partner_id == none && u.telegram_id != me.telegram_id && u.region == me.region)

/-- First row of minimal `updated_at` — the row `ORDER BY updated_at ASC`
followed by `first()` returns (ties are unspecified in SQL; we fix the
earliest row in table order). -/
def pickOldest : List DbUser → Option DbUser
  | [] => none
  | u :: us =>
    match pickOldest us with
    | none => some u
    | some b => if b.updated_at < u.updated_at then some b else some u

/-- The matchmaker query of bot.py's `find` branch. -/
def selectCandidate (st : List DbUser) (me : DbUser) : Option DbUser :=
  pickOldest (eligible st me)

/-- The `find` branch of `on_button`.  `deliver` is whether the
`bot.send_message` to the new partner succeeds.  On delivery failure both
partner fields are set back to their pre-transaction value inside the same
session, so the commit writes nothing (no net change, no `onupdate` bump). -/
def findBranch (deliver : Bool) (now : Nat) (bs : BotState) (me : DbUser) :
    BotState × List Msg :=
  if truthy me.partner_id then
    (bs, [{ dest := me.telegram_id, text := "You are already connected." }])
  else
    match selectCandidate bs.users me with
    | some p =>
      if deliver then
        ({ bs with users :=
             setPartner (setPartner bs.users me.id (some p.id) now) p.id (some me.id) now },
         [{ dest := me.telegram_id, text := "✅ Partner found! Start chatting." },
          { dest := p.telegram_id, text := "✅ Partner found! Start chatting." }])
      else
        (bs, [{ dest := me.telegram_id, text := "✅ Partner found! Start chatting." },
              { dest := me.telegram_id, text := "Partner unreachable. Try again." }])
    | none =>
      (bs, [{ dest := me.telegram_id, text := "⏳ Waiting for a partner in your region…" }])

/-- The `stop` branch of `on_button`.  The partner object is the live row
with primary key `me.partner_id`; reading it from the store after `me`'s
unlink reproduces the ORM aliasing (it is `me` itself when self-linked). -/
def stopBranch (deliver : Bool) (now : Nat) (bs : BotState) (me : DbUser) :
    BotState × List Msg :=
  if truthy me.partner_id then
    let pid := me.partner_id.getD 0
    let st1 := setPartner bs.users me.id none now
    let bye : Msg := { dest := me.telegram_id, text := "❌ Left chat.",
                       menu := some (main_menu me.premium) }
    match findById st1 pid with
    | some p =>
      if p.partner_id == some me.id then
        ({ bs with users := setPartner st1 pid none now },
         (if deliver then [{ dest := p.telegram_id, text := "❌ Your partner left." }] else [])
           ++ [bye])
      else ({ bs with users := st1 }, [bye])
    | none => ({ bs with users := st1 }, [bye])
  else
    (bs, [{ dest := me.telegram_id, text := "You are not in a chat." }])

/-- The unlink half of the `next` branch of `on_button`.  `me.partner_id`
is assigned `None` unconditionally in the source, but when it already was
`None` the session sees no net change and commits nothing. -/
def nextUnlink (deliver : Bool) (now : Nat) (bs : BotState) (me : DbUser) :
    BotState × List Msg :=
  let st1 := if me.partner_id = none then bs.users
             else setPartner bs.users me.id none now
  if truthy me.partner_id then
    match findById st1 (me.partner_id.getD 0) with
    | some p =>
      if p.partner_id == some me.id then
        ({ bs with users := setPartner st1 p.id none now },
         if deliver then [{ dest := p.telegram_id, text := "🔄 Your partner skipped you." }]
         else [])
      else ({ bs with users := st1 }, [])
    | none => ({ bs with users := st1 }, [])
  else ({ bs with users := st1 }, [])

/-- The `setregion` branch of `on_button` as written.  At run time the
`user.premium` read raises DetachedInstanceError on the detached expired
instance before either reply, so neither message is actually sent and the
flag is never set: see `on_button_run`.  On non-premium users this
idealized version has the same state effect (none) as the real code. -/
def setregionBranch (bs : BotState) (user : DbUser) : BotState × List Msg :=
  if user.premium then
    ({ bs with awaitRegion :=
         if bs.awaitRegion.contains user.telegram_id then bs.awaitRegion
         else user.telegram_id :: bs.awaitRegion },
     [{ dest := user.telegram_id,
        text := "Send the region name from: " ++ String.intercalate ", " CONTINENTS }])
  else
    (bs, [{ dest := user.telegram_id, text := "⚠️ Premium only." }])

/-- bot.py `on_button`: `get_user` first, then dispatch on the callback
data.  The `next` branch unlinks, replies, then replays the event with
`query.data = "find"` (which runs `get_user` again).  `deliver` is the
outcome of the branch's own outbound send, `deliver2` the outcome of the
send attempted by the replayed `find`. -/
def on_button (data : String) (deliver deliver2 : Bool) (now : Nat)
    (bs : BotState) (tg : Nat) (lang : Option String) : BotState × List Msg :=
  let r := get_user bs tg lang now
  let bs1 := r.1
  let user := r.2
  if data = "find" then findBranch deliver now bs1 user
  else if data = "stop" then stopBranch deliver now bs1 user
  else if data = "next" then
    let r1 := nextUnlink deliver now bs1 user
    let r2 := get_user r1.1 tg lang now
    let r3 := findBranch deliver2 now r2.1 r2.2
    (r3.1, r1.2 ++ [{ dest := tg, text := "🔎 Searching new partner…" }] ++ r3.2)
  else if data = "setregion" then setregionBranch bs1 user
  else (bs1, [])

/-- bot.py `on_text` as written: premium region-input flow when the
ephemeral `await_region` flag is set, otherwise relay to the partner.  At
run time the handler raises DetachedInstanceError at the `user.premium`
or `user.partner_id` read before any of this: see `on_text_run`.  On
stores of non-premium users this idealized version has the same state
effect (only `get_user`'s) as the real code, so it drives the state
invariants. -/
def on_text (deliver : Bool) (now : Nat) (bs : BotState) (tg : Nat)
    (lang : Option String) (txt : String) : BotState × List Msg :=
  let r := get_user bs tg lang now
  let bs1 := r.1
  let user := r.2
  if bs1.awaitRegion.contains tg && user.premium then
    let newRegion := txt.trim
    if CONTINENTS.contains newRegion then
      ({ bs1 with users := setRegion bs1.users user.id newRegion now,
                  awaitRegion := bs1.awaitRegion.filter (fun t => t != tg) },
       [{ dest := tg, text := "✅ Region updated to " ++ newRegion,
          menu := some (main_menu user.premium) }])
    else
      (bs1, [{ dest := tg, text := "Invalid region. Options: " ++
                String.intercalate ", " CONTINENTS }])
  else if truthy user.partner_id then
    match findById bs1.users (user.partner_id.getD 0) with
    | some p =>
      if deliver then (bs1, [{ dest := p.telegram_id, text := txt }])
      else (bs1, [{ dest := tg, text := "Delivery failed. Try Next." }])
    | none =>
      (bs1, [{ dest := tg, text := "Partner missing. Press Find." }])
  else
    (bs1, [{ dest := tg, text := "Use the buttons to find a partner.",
             menu := some (main_menu user.premium) }])

/-- bot.py `cmd_start` as written: ensure the user exists and greet with
the menu.  At run time the f-string's `user.region` read raises
DetachedInstanceError, so the greeting is never sent: see
`cmd_start_run`.  The state effect (`get_user`'s) is the same. -/
def cmd_start (now : Nat) (bs : BotState) (tg : Nat) (lang : Option String) :
    BotState × List Msg :=
  let r := get_user bs tg lang now
  (r.1, [{ dest := tg, text := "Welcome! Region: " ++ r.2.region,
           menu := some (main_menu r.2.premium) }])

/-- An inbound event from the transport, together with the delivery
outcomes of the outbound sends it may attempt and its wall-clock time. -/
inductive Ev where
  | start (tg : Nat) (lang : Option String) (now : Nat)
  | button (data : String) (tg : Nat) (lang : Option String)
      (deliver deliver2 : Bool) (now : Nat)
  | text (tg : Nat) (lang : Option String) (txt : String)
      (deliver : Bool) (now : Nat)
deriving Repr, DecidableEq

/-- One dispatched event of the written control flow (see the header:
its state effect on non-premium stores coincides with the real one). -/
def step (bs : BotState) : Ev → BotState × List Msg
  | .start tg lang now => cmd_start now bs tg lang
  | .button data tg lang d d2 now => on_button data d d2 now bs tg lang
  | .text tg lang txt d now => on_text d now bs tg lang txt

/-- States reachable from `bs₀` by dispatching events through the bot's
handlers. -/
inductive Reach (bs₀ : BotState) : BotState → Prop
  | refl : Reach bs₀ bs₀
  | tail {bs : BotState} (h : Reach bs₀ bs) (e : Ev) : Reach bs₀ (step bs e).1

/-- The empty deployment: no users, autoincrement at 1, no ephemeral flags. -/
def initState : BotState := { users := [], nextId := 1, awaitRegion := [] }

/-- Outcome of dispatching one event against the real session lifecycle:
the committed bot state when the handler finished or raised, the messages
actually delivered by then, and whether DetachedInstanceError was raised. -/
structure RunResult where
  state : BotState
  sent : List Msg
  raised : Bool
deriving Repr, DecidableEq

/-- bot.py `cmd_start` as the program actually behaves: `get_user` has
committed and closed its session, so the returned instance is detached
and expired; the greeting f-string's `user.region` read raises
DetachedInstanceError and no message is sent.  Only `get_user`'s state
effect survives. -/
def cmd_start_run (now : Nat) (bs : BotState) (tg : Nat) (lang : Option String) :
    RunResult :=
  { state := (get_user bs tg lang now).1, sent := [], raised := true }

/-- bot.py `on_button` as the program actually behaves.  The find, stop
and next branches touch `user` only through `s.merge(user)`, which
re-attaches by identity key without reading the expired attributes, so
they run exactly as `findBranch` / `stopBranch` / `nextUnlink`.  The
`setregion` branch reads `user.premium` on the detached expired instance
and raises before replying or setting the flag. -/
def on_button_run (data : String) (deliver deliver2 : Bool) (now : Nat)
    (bs : BotState) (tg : Nat) (lang : Option String) : RunResult :=
  let r := get_user bs tg lang now
  let bs1 := r.1
  let user := r.2
  if data = "find" then
    let o := findBranch deliver now bs1 user
    { state := o.1, sent := o.2, raised := false }
  else if data = "stop" then
    let o := stopBranch deliver now bs1 user
    { state := o.1, sent := o.2, raised := false }
  else if data = "next" then
    let r1 := nextUnlink deliver now bs1 user
    let r2 := get_user r1.1 tg lang now
    let r3 := findBranch deliver2 now r2.1 r2.2
    { state := r3.1,
      sent := r1.2 ++ [{ dest := tg, text := "🔎 Searching new partner…" }] ++ r3.2,
      raised := false }
  else if data = "setregion" then
    { state := bs1, sent := [], raised := true }
  else
    { state := bs1, sent := [], raised := false }

/-- bot.py `on_text` as the program actually behaves: with the
`await_region` flag unset the guard short-circuits and the
`user.partner_id` read raises DetachedInstanceError; with the flag set
the guard's `user.premium` read raises first.  Either way no relay,
prompt or reply is sent; only `get_user`'s state effect survives. -/
def on_text_run (deliver : Bool) (now : Nat) (bs : BotState) (tg : Nat)
    (lang : Option String) (txt : String) : RunResult :=
  { state := (get_user bs tg lang now).1, sent := [], raised := true }

/-- One dispatched event against the real session lifecycle. -/
def run (bs : BotState) : Ev → RunResult
  | .start tg lang now => cmd_start_run now bs tg lang
  | .button data tg lang d d2 now => on_button_run data d d2 now bs tg lang
  | .text tg lang txt d now => on_text_run d now bs tg lang txt

/-! ### Basic lemmas about the store helpers -/

theorem spRow_id (uid : Nat) (p : Option Nat) (now : Nat) (u : DbUser) :
    (spRow uid p now u).id = u.id := by
  unfold spRow; split <;> rfl

theorem spRow_tg (uid : Nat) (p : Option Nat) (now : Nat) (u : DbUser) :
    (spRow uid p now u).telegram_id = u.telegram_id := by
  unfold spRow; split <;> rfl

theorem spRow_premium (uid : Nat) (p : Option Nat) (now : Nat) (u : DbUser) :
    (spRow uid p now u).premium = u.premium := by
  unfold spRow; split <;> rfl

theorem srRow_id (uid : Nat) (r : String) (now : Nat) (u : DbUser) :
    (srRow uid r now u).id = u.id := by
  unfold srRow; split <;> rfl

theorem srRow_tg (uid : Nat) (r : String) (now : Nat) (u : DbUser) :
    (srRow uid r now u).telegram_id = u.telegram_id := by
  unfold srRow; split <;> rfl

theorem srRow_premium (uid : Nat) (r : String) (now : Nat) (u : DbUser) :
    (srRow uid r now u).premium = u.premium := by
  unfold srRow; split <;> rfl

theorem srRow_partner (uid : Nat) (r : String) (now : Nat) (u : DbUser) :
    (srRow uid r now u).partner_id = u.partner_id := by
  unfold srRow; split <;> rfl

theorem spRow_of_ne (uid : Nat) (p : Option Nat) (now : Nat) {u : DbUser}
    (h : u.id ≠ uid) : spRow uid p now u = u := by
  unfold spRow
  simp [h]

theorem spRow_of_eq (uid : Nat) (p : Option Nat) (now : Nat) {u : DbUser}
    (h : u.id = uid) : spRow uid p now u = { u with partner_id := p, updated_at := now } := by
  unfold spRow
  simp [h]

theorem mem_setPartner {st : List DbUser} {uid : Nat} {p : Option Nat} {now : Nat}
    {v : DbUser} :
    v ∈ setPartner st uid p now ↔ ∃ u ∈ st, spRow uid p now u = v := by
  unfold setPartner; exact List.mem_map

theorem mem_setRegion {st : List DbUser} {uid : Nat} {r : String} {now : Nat}
    {v : DbUser} :
    v ∈ setRegion st uid r now ↔ ∃ u ∈ st, srRow uid r now u = v := by
  unfold setRegion; exact List.mem_map

theorem setPartner_map_id (st : List DbUser) (uid : Nat) (p : Option Nat) (now : Nat) :
    (setPartner st uid p now).map (fun u => u.id) = st.map (fun u => u.id) := by
  unfold setPartner
  rw [List.map_map]
  congr 1
  funext u
  simp [Function.comp, spRow_id]

theorem setPartner_map_tg (st : List DbUser) (uid : Nat) (p : Option Nat) (now : Nat) :
    (setPartner st uid p now).map (fun u => u.telegram_id) = st.map (fun u => u.telegram_id) := by
  unfold setPartner
  rw [List.map_map]
  congr 1
  funext u
  simp [Function.comp, spRow_tg]

theorem setRegion_map_id (st : List DbUser) (uid : Nat) (r : String) (now : Nat) :
    (setRegion st uid r now).map (fun u => u.id) = st.map (fun u => u.id) := by
  unfold setRegion
  rw [List.map_map]
  congr 1
  funext u
  simp [Function.comp, srRow_id]

theorem setRegion_map_tg (st : List DbUser) (uid : Nat) (r : String) (now : Nat) :
    (setRegion st uid r now).map (fun u => u.telegram_id) = st.map (fun u => u.telegram_id) := by
  unfold setRegion
  rw [List.map_map]
  congr 1
  funext u
  simp [Function.comp, srRow_tg]

theorem findById_mem {st : List DbUser} {j : Nat} {u : DbUser}
    (h : findById st j = some u) : u ∈ st ∧ u.id = j := by
  refine ⟨List.mem_of_find?_eq_some h, ?_⟩
  have := List.find?_some h
  simpa using this

theorem findByTg_mem {st : List DbUser} {tg : Nat} {u : DbUser}
    (h : findByTg st tg = some u) : u ∈ st ∧ u.telegram_id = tg := by
  refine ⟨List.mem_of_find?_eq_some h, ?_⟩
  have := List.find?_some h
  simpa using this

theorem findByTg_eq_none {st : List DbUser} {tg : Nat} :
    findByTg st tg = none ↔ ∀ u ∈ st, u.telegram_id ≠ tg := by
  unfold findByTg
  rw [List.find?_eq_none]
  simp

theorem findById_eq_none {st : List DbUser} {j : Nat} :
    findById st j = none ↔ ∀ u ∈ st, u.id ≠ j := by
  unfold findById
  rw [List.find?_eq_none]
  simp

theorem eq_of_mem_id {st : List DbUser} (hnd : (st.map (fun u => u.id)).Nodup)
    {u v : DbUser} (hu : u ∈ st) (hv : v ∈ st) (h : u.id = v.id) : u = v :=
  List.inj_on_of_nodup_map hnd hu hv h

theorem findById_of_mem {st : List DbUser} (hnd : (st.map (fun u => u.id)).Nodup)
    {u : DbUser} (hu : u ∈ st) : findById st u.id = some u := by
  induction st with
  | nil => cases hu
  | cons a l ih =>
    rcases List.mem_cons.mp hu with rfl | hu'
    · unfold findById
      rw [List.find?_cons_of_pos]
      simp
    · have hane : a.id ≠ u.id := by
        intro he
        rw [List.map_cons, List.nodup_cons] at hnd
        exact hnd.1 (he ▸ List.mem_map_of_mem (fun w => w.id) hu')
      have hl : (l.map (fun u => u.id)).Nodup := by
        rw [List.map_cons, List.nodup_cons] at hnd
        exact hnd.2
      unfold findById at ih ⊢
      rw [List.find?_cons_of_neg]
      · exact ih hl hu'
      · simp [hane]

theorem findById_setPartner (st : List DbUser) (uid : Nat) (p : Option Nat)
    (now j : Nat) :
    findById (setPartner st uid p now) j = (findById st j).map (spRow uid p now) := by
  unfold findById setPartner
  have hp : ((fun u => u.id == j) ∘ spRow uid p now) = fun (u : DbUser) => u.id == j := by
    funext u
    simp [Function.comp, spRow_id]
  rw [List.find?_map, hp]

theorem mem_eligible {st : List DbUser} {me u : DbUser} :
    u ∈ eligible st me ↔
      u ∈ st ∧ u.partner_id = none ∧ u.telegram_id ≠ me.telegram_id ∧
        u.region = me.region := by
  unfold eligible
  rw [List.mem_filter]
  simp [and_assoc]

theorem pickOldest_eq_none {l : List DbUser} : pickOldest l = none ↔ l = [] := by
  cases l with
  | nil => simp [pickOldest]
  | cons u us =>
    unfold pickOldest
    cases pickOldest us with
    | none => simp
    | some b =>
      dsimp only
      constructor
      · intro h
        by_cases hlt : b.updated_at < u.updated_at
        · rw [if_pos hlt] at h; cases h
        · rw [if_neg hlt] at h; cases h
      · intro h; cases h

theorem pickOldest_mem : ∀ {l : List DbUser} {p : DbUser}, pickOldest l = some p → p ∈ l := by
  intro l
  induction l with
  | nil => intro p h; simp [pickOldest] at h
  | cons u us ih =>
    intro p h
    unfold pickOldest at h
    cases hrec : pickOldest us with
    | none =>
      rw [hrec] at h
      cases h
      exact List.mem_cons_self _ _
    | some b =>
      rw [hrec] at h
      dsimp only at h
      by_cases hlt : b.updated_at < u.updated_at
      · rw [if_pos hlt] at h
        cases h
        exact List.mem_cons_of_mem _ (ih hrec)
      · rw [if_neg hlt] at h
        cases h
        exact List.mem_cons_self _ _

theorem pickOldest_min : ∀ {l : List DbUser} {p : DbUser}, pickOldest l = some p →
    ∀ u ∈ l, p.updated_at ≤ u.updated_at := by
  intro l
  induction l with
  | nil => intro p h; simp [pickOldest] at h
  | cons u us ih =>
    intro p h v hv
    unfold pickOldest at h
    cases hrec : pickOldest us with
    | none =>
      rw [hrec] at h
      cases h
      have : us = [] := pickOldest_eq_none.mp hrec
      subst this
      rcases List.mem_cons.mp hv with rfl | hv'
      · exact le_refl _
      · cases hv'
    | some b =>
      rw [hrec] at h
      dsimp only at h
      by_cases hlt : b.updated_at < u.updated_at
      · rw [if_pos hlt] at h
        cases h
        rcases List.mem_cons.mp hv with rfl | hv'
        · exact le_of_lt hlt
        · exact ih hrec v hv'
      · rw [if_neg hlt] at h
        cases h
        rcases List.mem_cons.mp hv with rfl | hv'
        · exact le_refl _
        · exact le_trans (Nat.le_of_not_lt hlt) (ih hrec v hv')

theorem selectCandidate_mem {st : List DbUser} {me p : DbUser}
    (h : selectCandidate st me = some p) :
    p ∈ st ∧ p.partner_id = none ∧ p.telegram_id ≠ me.telegram_id ∧
      p.region = me.region := by
  exact mem_eligible.mp (pickOldest_mem h)

theorem selectCandidate_min {st : List DbUser} {me p : DbUser}
    (h : selectCandidate st me = some p) :
    ∀ u ∈ eligible st me, p.updated_at ≤ u.updated_at :=
  pickOldest_min h

/-! ### Invariants -/

/-- Structural facts guaranteed by the schema and the autoincrement key:
ids are pairwise distinct, telegram ids are pairwise distinct, every id is
positive and below the autoincrement counter. -/
def StructWF (bs : BotState) : Prop :=
  (bs.users.map (fun u => u.id)).Nodup ∧
  (bs.users.map (fun u => u.telegram_id)).Nodup ∧
  (∀ u ∈ bs.users, 1 ≤ u.id ∧ u.id < bs.nextId) ∧
  1 ≤ bs.nextId

/-- No one-sided links: every set partner pointer resolves to a row of the
table that points back. -/
def Symm (st : List DbUser) : Prop :=
  ∀ u ∈ st, ∀ pid : Nat, u.partner_id = some pid →
    ∃ v ∈ st, v.id = pid ∧ v.partner_id = some u.id

/-- No user is their own partner. -/
def NoSelf (st : List DbUser) : Prop := ∀ u ∈ st, u.partner_id ≠ some u.id

/-- Every user is non-premium. -/
def AllFree (st : List DbUser) : Prop := ∀ u ∈ st, u.premium = false

/-- Decidability of a guarded universal over the content of an `Option`,
so the invariants can be checked by `decide` on concrete stores. -/
instance decGuardedForall (o : Option Nat) (P : Nat → Prop) [DecidablePred P] :
    Decidable (∀ pid : Nat, o = some pid → P pid) :=
  match o with
  | none => isTrue (fun pid h => by cases h)
  | some a =>
    if h : P a then
      isTrue (fun pid hp => by cases hp; exact h)
    else isFalse (fun H => h (H a rfl))

instance decStructWF (bs : BotState) : Decidable (StructWF bs) := by
  unfold StructWF
  infer_instance

instance decSymm (st : List DbUser) : Decidable (Symm st) := by
  unfold Symm
  infer_instance

instance decNoSelf (st : List DbUser) : Decidable (NoSelf st) := by
  unfold NoSelf
  infer_instance

instance decAllFree (st : List DbUser) : Decidable (AllFree st) := by
  unfold AllFree
  infer_instance

/-! ### Preservation of the invariants by the store transformations -/

theorem spRow_partner_of_eq (uid : Nat) (p : Option Nat) (now : Nat) {u : DbUser}
    (h : u.id = uid) : (spRow uid p now u).partner_id = p := by
  unfold spRow
  simp [h]

theorem symm_map_of_fix {st : List DbUser} (f : DbUser → DbUser)
    (hid : ∀ u, (f u).id = u.id) (hpa : ∀ u, (f u).partner_id = u.partner_id)
    (hs : Symm st) : Symm (st.map f) := by
  intro x hx pid hp
  rcases List.mem_map.mp hx with ⟨u, hu, rfl⟩
  rw [hpa] at hp
  rcases hs u hu pid hp with ⟨v, hv, hvid, hvp⟩
  refine ⟨f v, List.mem_map_of_mem f hv, ?_, ?_⟩
  · rw [hid]; exact hvid
  · rw [hpa, hvp, hid]

theorem symm_append_fresh {st : List DbUser} {u : DbUser}
    (hpu : u.partner_id = none) (hs : Symm st) : Symm (st ++ [u]) := by
  intro x hx pid hp
  rcases List.mem_append.mp hx with hx' | hx'
  · rcases hs x hx' pid hp with ⟨v, hv, hvid, hvp⟩
    exact ⟨v, List.mem_append_left _ hv, hvid, hvp⟩
  · have hxu : x = u := by simpa using hx'
    subst hxu
    rw [hpu] at hp
    cases hp

theorem symm_link {st : List DbUser} {a b : DbUser} {now : Nat}
    (hnd : (st.map (fun u => u.id)).Nodup)
    (ha : a ∈ st) (hb : b ∈ st) (hab : a.id ≠ b.id)
    (hpa : a.partner_id = none) (hpb : b.partner_id = none)
    (hs : Symm st) :
    Symm (setPartner (setPartner st a.id (some b.id) now) b.id (some a.id) now) := by
  have memst : ∀ w ∈ st,
      spRow b.id (some a.id) now (spRow a.id (some b.id) now w) ∈
        setPartner (setPartner st a.id (some b.id) now) b.id (some a.id) now := by
    intro w hw
    exact mem_setPartner.mpr ⟨spRow a.id (some b.id) now w,
      mem_setPartner.mpr ⟨w, hw, rfl⟩, rfl⟩
  intro x hx pid hp
  rcases mem_setPartner.mp hx with ⟨y, hy, rfl⟩
  rcases mem_setPartner.mp hy with ⟨u, hu, rfl⟩
  by_cases hua : u.id = a.id
  · -- the requester's row: it now points at b
    have e1 : spRow b.id (some a.id) now (spRow a.id (some b.id) now u) =
        spRow a.id (some b.id) now u := by
      apply spRow_of_ne
      rw [spRow_id, hua]
      exact hab
    rw [e1] at hp ⊢
    rw [spRow_partner_of_eq _ _ _ hua] at hp
    have hpid : pid = b.id := by
      injection hp with h
      exact h.symm
    subst hpid
    refine ⟨spRow b.id (some a.id) now (spRow a.id (some b.id) now b), memst b hb, ?_, ?_⟩
    · have e2 : spRow a.id (some b.id) now b = b :=
        spRow_of_ne _ _ _ (Ne.symm hab)
      rw [e2, spRow_id]
    · have e2 : spRow a.id (some b.id) now b = b :=
        spRow_of_ne _ _ _ (Ne.symm hab)
      rw [e2, spRow_partner_of_eq _ _ _ rfl, spRow_id, hua]
  · by_cases hub : u.id = b.id
    · -- the candidate's row: it now points at a
      have e1 : spRow a.id (some b.id) now u = u := spRow_of_ne _ _ _ (by rw [hub]; exact Ne.symm hab)
      rw [e1] at hp ⊢
      rw [spRow_partner_of_eq _ _ _ hub] at hp
      have hpid : pid = a.id := by
        injection hp with h
        exact h.symm
      subst hpid
      refine ⟨spRow b.id (some a.id) now (spRow a.id (some b.id) now a), memst a ha, ?_, ?_⟩
      · have e2 : spRow b.id (some a.id) now (spRow a.id (some b.id) now a) =
            spRow a.id (some b.id) now a := by
          apply spRow_of_ne
          rw [spRow_id]
          exact hab
        rw [e2, spRow_id]
      · have e2 : spRow b.id (some a.id) now (spRow a.id (some b.id) now a) =
            spRow a.id (some b.id) now a := by
          apply spRow_of_ne
          rw [spRow_id]
          exact hab
        rw [e2, spRow_partner_of_eq _ _ _ rfl, spRow_id, hub]
    · -- untouched rows keep their reciprocal witness, which is also untouched
      have e1 : spRow b.id (some a.id) now (spRow a.id (some b.id) now u) = u := by
        rw [spRow_of_ne _ _ _ hua, spRow_of_ne _ _ _ hub]
      rw [e1] at hp ⊢
      rcases hs u hu pid hp with ⟨v, hv, hvid, hvp⟩
      have hva : v.id ≠ a.id := by
        intro he
        have : v = a := eq_of_mem_id hnd hv ha he
        rw [this, hpa] at hvp
        cases hvp
      have hvb : v.id ≠ b.id := by
        intro he
        have : v = b := eq_of_mem_id hnd hv hb he
        rw [this, hpb] at hvp
        cases hvp
      refine ⟨spRow b.id (some a.id) now (spRow a.id (some b.id) now v), memst v hv, ?_, ?_⟩
      · rw [spRow_of_ne _ _ _ hva, spRow_of_ne _ _ _ hvb, hvid]
      · rw [spRow_of_ne _ _ _ hva, spRow_of_ne _ _ _ hvb, hvp]

theorem symm_unlink_self {st : List DbUser} {me : DbUser} {now : Nat}
    (hnd : (st.map (fun u => u.id)).Nodup)
    (hme : me ∈ st) (hself : me.partner_id = some me.id)
    (hs : Symm st) : Symm (setPartner st me.id none now) := by
  intro x hx pid hp
  rcases mem_setPartner.mp hx with ⟨u, hu, rfl⟩
  by_cases hume : u.id = me.id
  · rw [spRow_partner_of_eq _ _ _ hume] at hp
    cases hp
  · rw [spRow_of_ne _ _ _ hume] at hp ⊢
    rcases hs u hu pid hp with ⟨v, hv, hvid, hvp⟩
    have hvme : v.id ≠ me.id := by
      intro he
      have heq : v = me := eq_of_mem_id hnd hv hme he
      rw [heq, hself] at hvp
      injection hvp with h
      exact hume h.symm
    refine ⟨spRow me.id none now v, mem_setPartner.mpr ⟨v, hv, rfl⟩, ?_, ?_⟩
    · rw [spRow_of_ne _ _ _ hvme, hvid]
    · rw [spRow_of_ne _ _ _ hvme, hvp]

theorem symm_unlink_pair {st : List DbUser} {me v : DbUser} {now : Nat}
    (hnd : (st.map (fun u => u.id)).Nodup)
    (hme : me ∈ st) (hv : v ∈ st) (hne : me.id ≠ v.id)
    (h1 : me.partner_id = some v.id) (h2 : v.partner_id = some me.id)
    (hs : Symm st) :
    Symm (setPartner (setPartner st me.id none now) v.id none now) := by
  intro x hx pid hp
  rcases mem_setPartner.mp hx with ⟨y, hy, rfl⟩
  rcases mem_setPartner.mp hy with ⟨u, hu, rfl⟩
  by_cases hume : u.id = me.id
  · have e1 : spRow v.id none now (spRow me.id none now u) = spRow me.id none now u := by
      apply spRow_of_ne
      rw [spRow_id, hume]
      exact hne
    rw [e1, spRow_partner_of_eq _ _ _ hume] at hp
    cases hp
  · by_cases huv : u.id = v.id
    · have e1 : spRow me.id none now u = u := spRow_of_ne _ _ _ hume
      rw [e1, spRow_partner_of_eq _ _ _ huv] at hp
      cases hp
    · have e1 : spRow v.id none now (spRow me.id none now u) = u := by
        rw [spRow_of_ne _ _ _ hume, spRow_of_ne _ _ _ huv]
      rw [e1] at hp ⊢
      rcases hs u hu pid hp with ⟨w, hw, hwid, hwp⟩
      have hwme : w.id ≠ me.id := by
        intro he
        have heq : w = me := eq_of_mem_id hnd hw hme he
        rw [heq, h1] at hwp
        injection hwp with h
        exact huv h.symm
      have hwv : w.id ≠ v.id := by
        intro he
        have heq : w = v := eq_of_mem_id hnd hw hv he
        rw [heq, h2] at hwp
        injection hwp with h
        exact hume h.symm
      refine ⟨spRow v.id none now (spRow me.id none now w),
        mem_setPartner.mpr ⟨spRow me.id none now w, mem_setPartner.mpr ⟨w, hw, rfl⟩, rfl⟩, ?_, ?_⟩
      · rw [spRow_of_ne _ _ _ hwme, spRow_of_ne _ _ _ hwv, hwid]
      · rw [spRow_of_ne _ _ _ hwme, spRow_of_ne _ _ _ hwv, hwp]

theorem noself_setPartner_none {st : List DbUser} {uid now : Nat}
    (hn : NoSelf st) : NoSelf (setPartner st uid none now) := by
  intro x hx
  rcases mem_setPartner.mp hx with ⟨u, hu, rfl⟩
  by_cases h : u.id = uid
  · rw [spRow_partner_of_eq _ _ _ h]
    intro hc
    cases hc
  · rw [spRow_of_ne _ _ _ h]
    exact hn u hu

theorem noself_link {st : List DbUser} {aid bid : Nat} {now : Nat}
    (hab : aid ≠ bid) (hn : NoSelf st) :
    NoSelf (setPartner (setPartner st aid (some bid) now) bid (some aid) now) := by
  intro x hx
  rcases mem_setPartner.mp hx with ⟨y, hy, rfl⟩
  rcases mem_setPartner.mp hy with ⟨u, hu, rfl⟩
  by_cases hb : (spRow aid (some bid) now u).id = bid
  · rw [spRow_partner_of_eq _ _ _ hb, spRow_id, spRow_id]
    rw [spRow_id] at hb
    intro hc
    injection hc with hc'
    exact hab (hc'.trans hb)
  · rw [spRow_of_ne _ _ _ hb]
    by_cases ha : u.id = aid
    · rw [spRow_partner_of_eq _ _ _ ha, spRow_id]
      intro hc
      injection hc with hc'
      exact hab ((hc'.trans ha).symm)
    · rw [spRow_of_ne _ _ _ ha]
      exact hn u hu

theorem noself_append {st : List DbUser} {u : DbUser}
    (hpu : u.partner_id = none) (hn : NoSelf st) : NoSelf (st ++ [u]) := by
  intro x hx
  rcases List.mem_append.mp hx with hx' | hx'
  · exact hn x hx'
  · have hxu : x = u := by simpa using hx'
    subst hxu
    rw [hpu]
    intro hc
    cases hc

theorem allfree_map {st : List DbUser} (f : DbUser → DbUser)
    (hf : ∀ u, (f u).premium = u.premium) (h : AllFree st) : AllFree (st.map f) := by
  intro x hx
  rcases List.mem_map.mp hx with ⟨u, hu, rfl⟩
  rw [hf]
  exact h u hu

theorem allfree_append {st : List DbUser} {u : DbUser}
    (hu : u.premium = false) (h : AllFree st) : AllFree (st ++ [u]) := by
  intro x hx
  rcases List.mem_append.mp hx with hx' | hx'
  · exact h x hx'
  · have hxu : x = u := by simpa using hx'
    subst hxu
    exact hu

theorem structWF_of_maps {bs : BotState} {st' : List DbUser} {ar : List Nat}
    (hw : StructWF bs)
    (hid : st'.map (fun u => u.id) = bs.users.map (fun u => u.id))
    (htg : st'.map (fun u => u.telegram_id) = bs.users.map (fun u => u.telegram_id)) :
    StructWF { users := st', nextId := bs.nextId, awaitRegion := ar } := by
  obtain ⟨h1, h2, h3, h4⟩ := hw
  refine ⟨by rw [hid]; exact h1, by rw [htg]; exact h2, ?_, h4⟩
  intro u hu
  have hmem : u.id ∈ bs.users.map (fun u => u.id) := by
    rw [← hid]
    exact List.mem_map_of_mem _ hu
  rcases List.mem_map.mp hmem with ⟨v, hv, hvid⟩
  exact hvid ▸ h3 v hv

/-! ### Evaluation lemmas for `get_user` -/

theorem get_user_found {bs : BotState} {tg : Nat} {lang : Option String} {now : Nat}
    {u : DbUser} (h : findByTg bs.users tg = some u) :
    get_user bs tg lang now = (bs, u) := by
  unfold get_user
  rw [h]

theorem get_user_absent {bs : BotState} {tg : Nat} {lang : Option String} {now : Nat}
    (h : findByTg bs.users tg = none) :
    get_user bs tg lang now =
      ({ bs with
          users := bs.users ++
            [{ id := bs.nextId, telegram_id := tg, region := infer_region lang,
               premium := false, partner_id := none, updated_at := now }],
          nextId := bs.nextId + 1 },
       { id := bs.nextId, telegram_id := tg, region := infer_region lang,
         premium := false, partner_id := none, updated_at := now }) := by
  unfold get_user
  rw [h]

theorem get_user_mem (bs : BotState) (tg : Nat) (lang : Option String) (now : Nat) :
    (get_user bs tg lang now).2 ∈ (get_user bs tg lang now).1.users := by
  cases h : findByTg bs.users tg with
  | some u =>
    rw [get_user_found h]
    exact (findByTg_mem h).1
  | none =>
    rw [get_user_absent h]
    simp

/-! ### `StructWF` is preserved by every handler -/

theorem structWF_irrel_await {bs : BotState} (ar : List Nat) (hw : StructWF bs) :
    StructWF { bs with awaitRegion := ar } := hw

theorem structWF_setPartner {bs : BotState} {uid : Nat} {p : Option Nat} {now : Nat}
    (hw : StructWF bs) :
    StructWF { bs with users := setPartner bs.users uid p now } :=
  structWF_of_maps hw (setPartner_map_id _ _ _ _) (setPartner_map_tg _ _ _ _)

theorem structWF_setPartner2 {bs : BotState} {u1 u2 : Nat} {p1 p2 : Option Nat} {now : Nat}
    (hw : StructWF bs) :
    StructWF { bs with users := setPartner (setPartner bs.users u1 p1 now) u2 p2 now } :=
  structWF_of_maps hw
    (by rw [setPartner_map_id, setPartner_map_id])
    (by rw [setPartner_map_tg, setPartner_map_tg])

theorem structWF_setRegion {bs : BotState} {uid : Nat} {r : String} {now : Nat} {ar : List Nat}
    (hw : StructWF bs) :
    StructWF { bs with users := setRegion bs.users uid r now, awaitRegion := ar } :=
  structWF_of_maps hw (setRegion_map_id _ _ _ _) (setRegion_map_tg _ _ _ _)

theorem structWF_get_user (bs : BotState) (tg : Nat) (lang : Option String) (now : Nat)
    (hw : StructWF bs) : StructWF (get_user bs tg lang now).1 := by
  cases h : findByTg bs.users tg with
  | some u =>
    rw [get_user_found h]
    exact hw
  | none =>
    rw [get_user_absent h]
    obtain ⟨h1, h2, h3, h4⟩ := hw
    unfold StructWF
    dsimp only
    refine ⟨?_, ?_, ?_, ?_⟩
    · rw [List.map_append]
      rw [List.nodup_append]
      refine ⟨h1, by simp, ?_⟩
      intro x hx hx'
      simp at hx'
      rcases List.mem_map.mp hx with ⟨v, hv, hvid⟩
      have := (h3 v hv).2
      omega
    · rw [List.map_append]
      rw [List.nodup_append]
      refine ⟨h2, by simp, ?_⟩
      intro x hx hx'
      simp at hx'
      rcases List.mem_map.mp hx with ⟨v, hv, hvid⟩
      have := findByTg_eq_none.mp h v hv
      rw [← hvid] at hx'
      exact this hx'
    · intro u hu
      rcases List.mem_append.mp hu with hu' | hu'
      · have := h3 u hu'
        constructor
        · exact this.1
        · omega
      · rw [List.mem_singleton] at hu'
        subst hu'
        exact ⟨h4, Nat.lt_succ_self _⟩
    · omega

theorem structWF_findBranch (d : Bool) (now : Nat) (bs : BotState) (me : DbUser)
    (hw : StructWF bs) : StructWF (findBranch d now bs me).1 := by
  unfold findBranch
  split
  · exact hw
  · split
    · split
      · exact structWF_setPartner2 hw
      · exact hw
    · exact hw

theorem structWF_stopBranch (d : Bool) (now : Nat) (bs : BotState) (me : DbUser)
    (hw : StructWF bs) : StructWF (stopBranch d now bs me).1 := by
  unfold stopBranch
  dsimp only
  split <;> (try split) <;> (try split) <;>
    first
      | exact hw
      | exact structWF_setPartner hw
      | exact structWF_setPartner2 hw

theorem structWF_nextUnlink (d : Bool) (now : Nat) (bs : BotState) (me : DbUser)
    (hw : StructWF bs) : StructWF (nextUnlink d now bs me).1 := by
  unfold nextUnlink
  dsimp only
  split <;> (try split) <;> (try split) <;> (try split) <;>
    first
      | exact hw
      | exact structWF_setPartner hw
      | exact structWF_setPartner2 hw

theorem structWF_setregionBranch (bs : BotState) (user : DbUser)
    (hw : StructWF bs) : StructWF (setregionBranch bs user).1 := by
  unfold setregionBranch
  split
  · exact structWF_irrel_await _ hw
  · exact hw

theorem structWF_on_button (data : String) (d d2 : Bool) (now : Nat)
    (bs : BotState) (tg : Nat) (lang : Option String)
    (hw : StructWF bs) : StructWF (on_button data d d2 now bs tg lang).1 := by
  unfold on_button
  dsimp only
  have hw1 := structWF_get_user bs tg lang now hw
  split
  · exact structWF_findBranch _ _ _ _ hw1
  · split
    · exact structWF_stopBranch _ _ _ _ hw1
    · split
      · exact structWF_findBranch _ _ _ _
          (structWF_get_user _ tg lang now (structWF_nextUnlink _ _ _ _ hw1))
      · split
        · exact structWF_setregionBranch _ _ hw1
        · exact hw1

theorem structWF_on_text (d : Bool) (now : Nat) (bs : BotState) (tg : Nat)
    (lang : Option String) (txt : String)
    (hw : StructWF bs) : StructWF (on_text d now bs tg lang txt).1 := by
  unfold on_text
  dsimp only
  have hw1 := structWF_get_user bs tg lang now hw
  split <;> (try split) <;> (try split) <;> (try split) <;>
    first
      | exact hw1
      | exact structWF_setRegion hw1

theorem structWF_step (bs : BotState) (e : Ev) (hw : StructWF bs) :
    StructWF (step bs e).1 := by
  cases e with
  | start tg lang now =>
    unfold step cmd_start
    exact structWF_get_user bs tg lang now hw
  | button data tg lang d d2 now =>
    exact structWF_on_button data d d2 now bs tg lang hw
  | text tg lang txt d now =>
    exact structWF_on_text d now bs tg lang txt hw

/-! ### `Symm` is preserved by every handler -/

/-- Under the invariants a falsy `partner_id` is really `None`: a stored
pointer `some 0` is impossible because ids are positive. -/
theorem partner_none_of_not_truthy {bs : BotState} {me : DbUser}
    (hw : StructWF bs) (hs : Symm bs.users) (hme : me ∈ bs.users)
    (ht : truthy me.partner_id = false) : me.partner_id = none := by
  cases hp : me.partner_id with
  | none => rfl
  | some n =>
    exfalso
    rw [hp] at ht
    unfold truthy at ht
    have hn : n = 0 := by simpa using ht
    subst hn
    rcases hs me hme 0 hp with ⟨v, hv, hvid, _⟩
    have h1 := (hw.2.2.1 v hv).1
    omega

theorem symm_get_user (bs : BotState) (tg : Nat) (lang : Option String) (now : Nat)
    (hs : Symm bs.users) : Symm (get_user bs tg lang now).1.users := by
  cases h : findByTg bs.users tg with
  | some u =>
    rw [get_user_found h]
    exact hs
  | none =>
    rw [get_user_absent h]
    dsimp only
    exact symm_append_fresh rfl hs

theorem symm_findBranch (d : Bool) (now : Nat) (bs : BotState) (me : DbUser)
    (hme : me ∈ bs.users) (hw : StructWF bs) (hs : Symm bs.users) :
    Symm (findBranch d now bs me).1.users := by
  unfold findBranch
  cases ht : truthy me.partner_id with
  | true => exact hs
  | false =>
    have hnone : me.partner_id = none := partner_none_of_not_truthy hw hs hme ht
    cases hsel : selectCandidate bs.users me with
    | none => exact hs
    | some p =>
      cases d with
      | false => exact hs
      | true =>
        obtain ⟨hpmem, hppart, hptg, hpreg⟩ := selectCandidate_mem hsel
        have hab : me.id ≠ p.id := by
          intro he
          have hmp : me = p := eq_of_mem_id hw.1 hme hpmem he
          rw [hmp] at hptg
          exact hptg rfl
        exact symm_link hw.1 hme hpmem hab hnone hppart hs

/-- The net store produced by the `stop` branch, under the invariants:
either nobody is linked to the requester (falsy guard, no change) or both
ends of the link are cleared. -/
theorem symm_stopBranch (d : Bool) (now : Nat) (bs : BotState) (me : DbUser)
    (hme : me ∈ bs.users) (hw : StructWF bs) (hs : Symm bs.users) :
    Symm (stopBranch d now bs me).1.users := by
  unfold stopBranch
  dsimp only
  cases ht : truthy me.partner_id with
  | false => exact hs
  | true =>
    cases hp : me.partner_id with
    | none =>
      rw [hp] at ht
      simp [truthy] at ht
    | some pid =>
      simp only [Option.getD_some]
      rcases hs me hme pid hp with ⟨v, hv, hvid, hvp⟩
      by_cases hpe : pid = me.id
      · have hself : me.partner_id = some me.id := by rw [hp, hpe]
        have hfind : findById (setPartner bs.users me.id none now) pid =
            some (spRow me.id none now me) := by
          rw [findById_setPartner, hpe, findById_of_mem hw.1 hme]
          rfl
        rw [hfind]
        dsimp only
        have hcheck : ((spRow me.id none now me).partner_id == some me.id) = false := by
          rw [spRow_partner_of_eq _ _ _ rfl]
          rfl
        rw [hcheck]
        exact symm_unlink_self hw.1 hme hself hs
      · have hvne : v.id ≠ me.id := by
          rw [hvid]
          exact hpe
        have hfindv : findById bs.users pid = some v := by
          have h0 := findById_of_mem hw.1 hv
          rw [hvid] at h0
          exact h0
        have hfind : findById (setPartner bs.users me.id none now) pid = some v := by
          rw [findById_setPartner, hfindv]
          dsimp only [Option.map]
          rw [spRow_of_ne _ _ _ hvne]
        rw [hfind]
        dsimp only
        have hcheck : (v.partner_id == some me.id) = true := by
          rw [hvp]
          simp
        rw [hcheck]
        have hne : me.id ≠ v.id := by
          rw [hvid]
          exact fun he => hpe he.symm
        have hme_p : me.partner_id = some v.id := by rw [hp, hvid]
        have hres := @symm_unlink_pair bs.users me v now hw.1 hme hv hne hme_p hvp hs
        rw [← hvid]
        exact hres

theorem symm_nextUnlink (d : Bool) (now : Nat) (bs : BotState) (me : DbUser)
    (hme : me ∈ bs.users) (hw : StructWF bs) (hs : Symm bs.users) :
    Symm (nextUnlink d now bs me).1.users := by
  unfold nextUnlink
  dsimp only
  cases hp : me.partner_id with
  | none => exact hs
  | some pid =>
    rcases hs me hme pid hp with ⟨v, hv, hvid, hvp⟩
    have hpid1 : 1 ≤ pid := by
      have h1 := (hw.2.2.1 v hv).1
      omega
    have ht : truthy (some pid) = true := by
      unfold truthy
      simp
      omega
    rw [ht]
    dsimp only [Option.getD_some]
    have hifst : (if (some pid : Option Nat) = none then bs.users
        else setPartner bs.users me.id none now) = setPartner bs.users me.id none now := by
      rw [if_neg]
      simp
    rw [hifst]
    by_cases hpe : pid = me.id
    · have hself : me.partner_id = some me.id := by rw [hp, hpe]
      have hfind : findById (setPartner bs.users me.id none now) pid =
          some (spRow me.id none now me) := by
        rw [findById_setPartner, hpe, findById_of_mem hw.1 hme]
        rfl
      rw [hfind]
      dsimp only
      have hcheck : ((spRow me.id none now me).partner_id == some me.id) = false := by
        rw [spRow_partner_of_eq _ _ _ rfl]
        rfl
      rw [hcheck]
      exact symm_unlink_self hw.1 hme hself hs
    · have hvne : v.id ≠ me.id := by
        rw [hvid]
        exact hpe
      have hfindv : findById bs.users pid = some v := by
        have h0 := findById_of_mem hw.1 hv
        rw [hvid] at h0
        exact h0
      have hfind : findById (setPartner bs.users me.id none now) pid = some v := by
        rw [findById_setPartner, hfindv]
        dsimp only [Option.map]
        rw [spRow_of_ne _ _ _ hvne]
      rw [hfind]
      dsimp only
      have hcheck : (v.partner_id == some me.id) = true := by
        rw [hvp]
        simp
      rw [hcheck]
      have hne : me.id ≠ v.id := by
        rw [hvid]
        exact fun he => hpe he.symm
      have hme_p : me.partner_id = some v.id := by rw [hp, hvid]
      exact symm_unlink_pair hw.1 hme hv hne hme_p hvp hs

theorem symm_setregionBranch (bs : BotState) (user : DbUser)
    (hs : Symm bs.users) : Symm (setregionBranch bs user).1.users := by
  unfold setregionBranch
  split
  · exact hs
  · exact hs

theorem symm_on_button (data : String) (d d2 : Bool) (now : Nat)
    (bs : BotState) (tg : Nat) (lang : Option String)
    (hw : StructWF bs) (hs : Symm bs.users) :
    Symm (on_button data d d2 now bs tg lang).1.users := by
  unfold on_button
  dsimp only
  have hw1 := structWF_get_user bs tg lang now hw
  have hs1 := symm_get_user bs tg lang now hs
  have hm1 := get_user_mem bs tg lang now
  split
  · exact symm_findBranch _ _ _ _ hm1 hw1 hs1
  · split
    · exact symm_stopBranch _ _ _ _ hm1 hw1 hs1
    · split
      · have hw2 := structWF_nextUnlink d now (get_user bs tg lang now).1
          (get_user bs tg lang now).2 hw1
        have hs2 := symm_nextUnlink d now (get_user bs tg lang now).1
          (get_user bs tg lang now).2 hm1 hw1 hs1
        exact symm_findBranch _ _ _ _
          (get_user_mem _ tg lang now)
          (structWF_get_user _ tg lang now hw2)
          (symm_get_user _ tg lang now hs2)
      · split
        · exact symm_setregionBranch _ _ hs1
        · exact hs1

theorem symm_on_text (d : Bool) (now : Nat) (bs : BotState) (tg : Nat)
    (lang : Option String) (txt : String)
    (hs : Symm bs.users) : Symm (on_text d now bs tg lang txt).1.users := by
  unfold on_text
  dsimp only
  have hs1 := symm_get_user bs tg lang now hs
  split <;> (try split) <;> (try split) <;> (try split) <;>
    first
      | exact hs1
      | exact symm_map_of_fix _ (srRow_id _ _ _) (srRow_partner _ _ _) hs1

theorem symm_step (bs : BotState) (e : Ev) (hw : StructWF bs) (hs : Symm bs.users) :
    Symm (step bs e).1.users := by
  cases e with
  | start tg lang now =>
    unfold step cmd_start
    exact symm_get_user bs tg lang now hs
  | button data tg lang d d2 now =>
    exact symm_on_button data d d2 now bs tg lang hw hs
  | text tg lang txt d now =>
    exact symm_on_text d now bs tg lang txt hs

/-! ### `NoSelf` is preserved by every handler -/

theorem noself_setRegion {st : List DbUser} {uid : Nat} {r : String} {now : Nat}
    (hn : NoSelf st) : NoSelf (setRegion st uid r now) := by
  intro x hx
  rcases mem_setRegion.mp hx with ⟨u, hu, rfl⟩
  rw [srRow_partner, srRow_id]
  exact hn u hu

theorem noself_get_user (bs : BotState) (tg : Nat) (lang : Option String) (now : Nat)
    (hn : NoSelf bs.users) : NoSelf (get_user bs tg lang now).1.users := by
  cases h : findByTg bs.users tg with
  | some u =>
    rw [get_user_found h]
    exact hn
  | none =>
    rw [get_user_absent h]
    dsimp only
    exact noself_append rfl hn

theorem noself_findBranch (d : Bool) (now : Nat) (bs : BotState) (me : DbUser)
    (hme : me ∈ bs.users) (hw : StructWF bs) (hn : NoSelf bs.users) :
    NoSelf (findBranch d now bs me).1.users := by
  unfold findBranch
  cases ht : truthy me.partner_id with
  | true => exact hn
  | false =>
    cases hsel : selectCandidate bs.users me with
    | none => exact hn
    | some p =>
      cases d with
      | false => exact hn
      | true =>
        obtain ⟨hpmem, hppart, hptg, hpreg⟩ := selectCandidate_mem hsel
        have hab : me.id ≠ p.id := by
          intro he
          have hmp : me = p := eq_of_mem_id hw.1 hme hpmem he
          rw [hmp] at hptg
          exact hptg rfl
        exact noself_link hab hn

theorem noself_stopBranch (d : Bool) (now : Nat) (bs : BotState) (me : DbUser)
    (hn : NoSelf bs.users) : NoSelf (stopBranch d now bs me).1.users := by
  unfold stopBranch
  dsimp only
  split <;> (try split) <;> (try split) <;>
    first
      | exact hn
      | exact noself_setPartner_none hn
      | exact noself_setPartner_none (noself_setPartner_none hn)

theorem noself_nextUnlink (d : Bool) (now : Nat) (bs : BotState) (me : DbUser)
    (hn : NoSelf bs.users) : NoSelf (nextUnlink d now bs me).1.users := by
  unfold nextUnlink
  dsimp only
  split <;> (try split) <;> (try split) <;> (try split) <;>
    first
      | exact hn
      | exact noself_setPartner_none hn
      | exact noself_setPartner_none (noself_setPartner_none hn)

theorem noself_on_button (data : String) (d d2 : Bool) (now : Nat)
    (bs : BotState) (tg : Nat) (lang : Option String)
    (hw : StructWF bs) (hn : NoSelf bs.users) :
    NoSelf (on_button data d d2 now bs tg lang).1.users := by
  unfold on_button
  dsimp only
  have hw1 := structWF_get_user bs tg lang now hw
  have hn1 := noself_get_user bs tg lang now hn
  have hm1 := get_user_mem bs tg lang now
  split
  · exact noself_findBranch _ _ _ _ hm1 hw1 hn1
  · split
    · exact noself_stopBranch _ _ _ _ hn1
    · split
      · have hw2 := structWF_nextUnlink d now (get_user bs tg lang now).1
          (get_user bs tg lang now).2 hw1
        have hn2 := noself_nextUnlink d now (get_user bs tg lang now).1
          (get_user bs tg lang now).2 hn1
        exact noself_findBranch _ _ _ _
          (get_user_mem _ tg lang now)
          (structWF_get_user _ tg lang now hw2)
          (noself_get_user _ tg lang now hn2)
      · split
        · unfold setregionBranch
          split
          · exact hn1
          · exact hn1
        · exact hn1

theorem noself_on_text (d : Bool) (now : Nat) (bs : BotState) (tg : Nat)
    (lang : Option String) (txt : String)
    (hn : NoSelf bs.users) : NoSelf (on_text d now bs tg lang txt).1.users := by
  unfold on_text
  dsimp only
  have hn1 := noself_get_user bs tg lang now hn
  split <;> (try split) <;> (try split) <;> (try split) <;>
    first
      | exact hn1
      | exact noself_setRegion hn1

theorem noself_step (bs : BotState) (e : Ev) (hw : StructWF bs) (hn : NoSelf bs.users) :
    NoSelf (step bs e).1.users := by
  cases e with
  | start tg lang now =>
    unfold step cmd_start
    exact noself_get_user bs tg lang now hn
  | button data tg lang d d2 now =>
    exact noself_on_button data d d2 now bs tg lang hw hn
  | text tg lang txt d now =>
    exact noself_on_text d now bs tg lang txt hn

/-! ### `AllFree` is preserved; the premium flow stays unreachable -/

theorem allfree_setPartner {st : List DbUser} {uid : Nat} {p : Option Nat} {now : Nat}
    (h : AllFree st) : AllFree (setPartner st uid p now) :=
  allfree_map _ (spRow_premium _ _ _) h

theorem allfree_setRegion {st : List DbUser} {uid : Nat} {r : String} {now : Nat}
    (h : AllFree st) : AllFree (setRegion st uid r now) :=
  allfree_map _ (srRow_premium _ _ _) h

theorem allfree_get_user (bs : BotState) (tg : Nat) (lang : Option String) (now : Nat)
    (h : AllFree bs.users) : AllFree (get_user bs tg lang now).1.users := by
  cases hc : findByTg bs.users tg with
  | some u =>
    rw [get_user_found hc]
    exact h
  | none =>
    rw [get_user_absent hc]
    dsimp only
    exact allfree_append rfl h

theorem get_user_premium (bs : BotState) (tg : Nat) (lang : Option String) (now : Nat)
    (h : AllFree bs.users) : (get_user bs tg lang now).2.premium = false := by
  cases hc : findByTg bs.users tg with
  | some u =>
    rw [get_user_found hc]
    exact h u (findByTg_mem hc).1
  | none =>
    rw [get_user_absent hc]

theorem allfree_findBranch (d : Bool) (now : Nat) (bs : BotState) (me : DbUser)
    (h : AllFree bs.users) : AllFree (findBranch d now bs me).1.users := by
  unfold findBranch
  split <;> (try split) <;> (try split) <;>
    first
      | exact h
      | exact allfree_setPartner (allfree_setPartner h)

theorem allfree_stopBranch (d : Bool) (now : Nat) (bs : BotState) (me : DbUser)
    (h : AllFree bs.users) : AllFree (stopBranch d now bs me).1.users := by
  unfold stopBranch
  dsimp only
  split <;> (try split) <;> (try split) <;>
    first
      | exact h
      | exact allfree_setPartner h
      | exact allfree_setPartner (allfree_setPartner h)

theorem allfree_nextUnlink (d : Bool) (now : Nat) (bs : BotState) (me : DbUser)
    (h : AllFree bs.users) : AllFree (nextUnlink d now bs me).1.users := by
  unfold nextUnlink
  dsimp only
  split <;> (try split) <;> (try split) <;> (try split) <;>
    first
      | exact h
      | exact allfree_setPartner h
      | exact allfree_setPartner (allfree_setPartner h)

theorem allfree_on_button (data : String) (d d2 : Bool) (now : Nat)
    (bs : BotState) (tg : Nat) (lang : Option String)
    (h : AllFree bs.users) : AllFree (on_button data d d2 now bs tg lang).1.users := by
  unfold on_button
  dsimp only
  have h1 := allfree_get_user bs tg lang now h
  split
  · exact allfree_findBranch _ _ _ _ h1
  · split
    · exact allfree_stopBranch _ _ _ _ h1
    · split
      · exact allfree_findBranch _ _ _ _
          (allfree_get_user _ tg lang now (allfree_nextUnlink _ _ _ _ h1))
      · split
        · unfold setregionBranch
          split
          · exact h1
          · exact h1
        · exact h1

theorem allfree_on_text (d : Bool) (now : Nat) (bs : BotState) (tg : Nat)
    (lang : Option String) (txt : String)
    (h : AllFree bs.users) : AllFree (on_text d now bs tg lang txt).1.users := by
  unfold on_text
  dsimp only
  have h1 := allfree_get_user bs tg lang now h
  split <;> (try split) <;> (try split) <;> (try split) <;>
    first
      | exact h1
      | exact allfree_setRegion h1

theorem allfree_step (bs : BotState) (e : Ev) (h : AllFree bs.users) :
    AllFree (step bs e).1.users := by
  cases e with
  | start tg lang now =>
    unfold step cmd_start
    exact allfree_get_user bs tg lang now h
  | button data tg lang d d2 now =>
    exact allfree_on_button data d d2 now bs tg lang h
  | text tg lang txt d now =>
    exact allfree_on_text d now bs tg lang txt h

theorem get_user_tg (bs : BotState) (tg : Nat) (lang : Option String) (now : Nat) :
    (get_user bs tg lang now).2.telegram_id = tg := by
  cases hc : findByTg bs.users tg with
  | some u =>
    rw [get_user_found hc]
    exact (findByTg_mem hc).2
  | none =>
    rw [get_user_absent hc]

theorem await_get_user (bs : BotState) (tg : Nat) (lang : Option String) (now : Nat) :
    (get_user bs tg lang now).1.awaitRegion = bs.awaitRegion := by
  cases hc : findByTg bs.users tg with
  | some u => rw [get_user_found hc]
  | none => rw [get_user_absent hc]

theorem await_findBranch (d : Bool) (now : Nat) (bs : BotState) (me : DbUser) :
    (findBranch d now bs me).1.awaitRegion = bs.awaitRegion := by
  unfold findBranch
  split <;> (try split) <;> (try split) <;> rfl

theorem await_stopBranch (d : Bool) (now : Nat) (bs : BotState) (me : DbUser) :
    (stopBranch d now bs me).1.awaitRegion = bs.awaitRegion := by
  unfold stopBranch
  dsimp only
  split <;> (try split) <;> (try split) <;> rfl

theorem await_nextUnlink (d : Bool) (now : Nat) (bs : BotState) (me : DbUser) :
    (nextUnlink d now bs me).1.awaitRegion = bs.awaitRegion := by
  unfold nextUnlink
  dsimp only
  split <;> (try split) <;> (try split) <;> (try split) <;> rfl

theorem await_on_button (data : String) (d d2 : Bool) (now : Nat)
    (bs : BotState) (tg : Nat) (lang : Option String)
    (hf : AllFree bs.users) :
    (on_button data d d2 now bs tg lang).1.awaitRegion = bs.awaitRegion := by
  unfold on_button
  dsimp only
  have hpr := get_user_premium bs tg lang now hf
  have ha1 := await_get_user bs tg lang now
  split
  · rw [await_findBranch, ha1]
  · split
    · rw [await_stopBranch, ha1]
    · split
      · rw [await_findBranch, await_get_user, await_nextUnlink, ha1]
      · split
        · unfold setregionBranch
          split
          · exact absurd (by assumption) (by rw [hpr]; exact Bool.false_ne_true)
          · exact ha1
        · exact ha1

theorem await_on_text (d : Bool) (now : Nat) (bs : BotState) (tg : Nat)
    (lang : Option String) (txt : String) (hf : AllFree bs.users) :
    (on_text d now bs tg lang txt).1.awaitRegion = bs.awaitRegion := by
  unfold on_text
  dsimp only
  have hpr := get_user_premium bs tg lang now hf
  have ha1 := await_get_user bs tg lang now
  split <;> (try split) <;> (try split) <;> (try split) <;>
    first
      | exact ha1
      | (exfalso
         rename_i hcond
         rw [hpr, Bool.and_false] at hcond
         exact Bool.false_ne_true hcond)
      | (exfalso
         rename_i hcond hlast
         rw [hpr, Bool.and_false] at hcond
         exact Bool.false_ne_true hcond)

theorem await_step (bs : BotState) (e : Ev) (hf : AllFree bs.users) :
    (step bs e).1.awaitRegion = bs.awaitRegion := by
  cases e with
  | start tg lang now =>
    unfold step cmd_start
    exact await_get_user bs tg lang now
  | button data tg lang d d2 now =>
    exact await_on_button data d d2 now bs tg lang hf
  | text tg lang txt d now =>
    exact await_on_text d now bs tg lang txt hf

theorem menus_findBranch (d : Bool) (now : Nat) (bs : BotState) (me : DbUser) :
    ∀ m ∈ (findBranch d now bs me).2, m.menu = none := by
  unfold findBranch
  split <;> (try split) <;> (try split) <;>
    (intro m hm
     simp at hm) <;>
    first
      | (rcases hm with rfl | rfl <;> rfl)
      | (subst hm; rfl)

theorem menus_stopBranch (d : Bool) (now : Nat) (bs : BotState) (me : DbUser)
    (hp : me.premium = false) :
    ∀ m ∈ (stopBranch d now bs me).2,
      m.menu = none ∨ m.menu = some (main_menu false) := by
  unfold stopBranch
  dsimp only
  rw [hp]
  split <;> (try split) <;> (try split) <;> (try split) <;>
    (intro m hm
     simp at hm) <;>
    first
      | (rcases hm with rfl | rfl <;> simp)
      | (subst hm; simp)

theorem menus_nextUnlink (d : Bool) (now : Nat) (bs : BotState) (me : DbUser) :
    ∀ m ∈ (nextUnlink d now bs me).2, m.menu = none := by
  unfold nextUnlink
  dsimp only
  split <;> (try split) <;> (try split) <;> (try split) <;> (try split) <;>
    (intro m hm
     simp at hm) <;>
    first
      | (rcases hm with rfl | rfl <;> rfl)
      | (subst hm; rfl)

theorem menus_run (bs : BotState) (e : Ev) (hf : AllFree bs.users) :
    ∀ m ∈ (run bs e).sent, m.menu = none ∨ m.menu = some (main_menu false) := by
  cases e with
  | start tg lang now =>
    intro m hm
    cases hm
  | text tg lang txt d now =>
    intro m hm
    cases hm
  | button data tg lang d d2 now =>
    show ∀ m ∈ (on_button_run data d d2 now bs tg lang).sent, _
    unfold on_button_run
    dsimp only
    have hpr := get_user_premium bs tg lang now hf
    split
    · intro m hm
      exact Or.inl (menus_findBranch _ _ _ _ m hm)
    · split
      · exact menus_stopBranch _ _ _ _ hpr
      · split
        · intro m hm
          rcases List.mem_append.mp hm with hm' | hm'
          · rcases List.mem_append.mp hm' with hm'' | hm''
            · exact Or.inl (menus_nextUnlink _ _ _ _ m hm'')
            · have hmenu : m.menu = none := by
                have hmx : m = Msg.mk tg "🔎 Searching new partner…" none := by
                  simpa using hm''
                rw [hmx]
              exact Or.inl hmenu
          · exact Or.inl (menus_findBranch _ _ _ _ m hm')
        · split
          · intro m hm
            cases hm
          · intro m hm
            cases hm

/-- A two-user demonstration store: both users Idle in the same region,
the first one waiting longer. -/
def demoIdle : BotState :=
  { users :=
      [{ id := 1, telegram_id := 101, region := "Asia", premium := false,
         partner_id := none, updated_at := 10 },
       { id := 2, telegram_id := 102, region := "Asia", premium := false,
         partner_id := none, updated_at := 20 }],
    nextId := 3, awaitRegion := [] }

/-- C1: partner linkage is symmetric: in every state the handlers can reach
from a structurally well-formed store with no one-sided links, for every
pair of users A, B, `A.partner_id = B.id` holds iff `B.partner_id = A.id`;
no handler leaves a one-sided link behind. -/
theorem partner_linkage_symmetric (bs₀ bs : BotState)
    (hw : StructWF bs₀) (hs : Symm bs₀.users) (hr : Reach bs₀ bs) :
    ∀ A ∈ bs.users, ∀ B ∈ bs.users,
      (A.partner_id = some B.id ↔ B.partner_id = some A.id) := by
  have key : StructWF bs ∧ Symm bs.users := by
    induction hr with
    | refl => exact ⟨hw, hs⟩
    | tail h e ih => exact ⟨structWF_step _ e ih.1, symm_step _ e ih.1 ih.2⟩
  obtain ⟨hw', hs'⟩ := key
  intro A hA B hB
  constructor
  · intro h
    rcases hs' A hA B.id h with ⟨v, hv, hvid, hvp⟩
    have hveq : v = B := eq_of_mem_id hw'.1 hv hB hvid
    rw [← hveq]
    exact hvp
  · intro h
    rcases hs' B hB A.id h with ⟨v, hv, hvid, hvp⟩
    have hveq : v = A := eq_of_mem_id hw'.1 hv hA hvid
    rw [← hveq]
    exact hvp

/-- Witness for C1: from the two-user Idle store, a `find` press by user 101
reaches the paired state, where the two rows point at each other. -/
theorem partner_linkage_symmetric_witness :
    (({ id := 1, telegram_id := 101, region := "Asia", premium := false,
        partner_id := some 2, updated_at := 50 } : DbUser).partner_id =
      some ({ id := 2, telegram_id := 102, region := "Asia", premium := false,
              partner_id := some 1, updated_at := 50 } : DbUser).id) ↔
    (({ id := 2, telegram_id := 102, region := "Asia", premium := false,
        partner_id := some 1, updated_at := 50 } : DbUser).partner_id =
      some ({ id := 1, telegram_id := 101, region := "Asia", premium := false,
              partner_id := some 2, updated_at := 50 } : DbUser).id) :=
  partner_linkage_symmetric demoIdle _ (by decide) (by decide)
    (Reach.tail Reach.refl (Ev.button "find" 101 none true true 50))
    _ (by decide) _ (by decide)

/-- C4: no self-pairing: in every state the handlers can reach from a
structurally well-formed store with no self-links, no user is their own
partner, and the matchmaker never selects a candidate with the requester's
telegram id. -/
theorem no_self_pairing (bs₀ bs : BotState)
    (hw : StructWF bs₀) (hn : NoSelf bs₀.users) (hr : Reach bs₀ bs) :
    (∀ A ∈ bs.users, A.partner_id ≠ some A.id) ∧
    (∀ me p : DbUser, selectCandidate bs.users me = some p →
        p.telegram_id ≠ me.telegram_id) := by
  have key : StructWF bs ∧ NoSelf bs.users := by
    induction hr with
    | refl => exact ⟨hw, hn⟩
    | tail h e ih => exact ⟨structWF_step _ e ih.1, noself_step _ e ih.1 ih.2⟩
  refine ⟨key.2, ?_⟩
  intro me p hp
  exact (selectCandidate_mem hp).2.2.1

/-- Witness for C4: the row of user 101 after the demonstration pairing is
not linked to itself. -/
theorem no_self_pairing_witness :
    ({ id := 1, telegram_id := 101, region := "Asia", premium := false,
       partner_id := some 2, updated_at := 50 } : DbUser).partner_id ≠
      some ({ id := 1, telegram_id := 101, region := "Asia", premium := false,
              partner_id := some 2, updated_at := 50 } : DbUser).id :=
  (no_self_pairing demoIdle _ (by decide) (by decide)
    (Reach.tail Reach.refl (Ev.button "find" 101 none true true 50))).1
    _ (by decide)

/-- C10: starting from the empty store, every reachable state has only
non-premium users and no pending region prompt; every message any event
actually delivers carries either no menu or the non-premium menu, which
has no Set Region button; and a `setregion` press delivers nothing at all
— the `user.premium` read raises on the detached expired instance before
the premium-only reply, so the premium-gated flow is unreachable. -/
theorem premium_flow_unreachable (bs : BotState) (hr : Reach initState bs) :
    AllFree bs.users ∧ bs.awaitRegion = [] ∧
    (∀ e : Ev, ∀ m ∈ (run bs e).sent, m.menu = none ∨ m.menu = some (main_menu false)) ∧
    (∀ tg : Nat, ∀ lang : Option String, ∀ d d2 : Bool, ∀ now : Nat,
        run bs (Ev.button "setregion" tg lang d d2 now) =
          { state := (get_user bs tg lang now).1, sent := [], raised := true }) ∧
    (∀ row ∈ main_menu false, ∀ b ∈ row, b.2 ≠ "setregion") := by
  have key : AllFree bs.users ∧ bs.awaitRegion = [] := by
    induction hr with
    | refl => exact ⟨fun u hu => absurd hu (List.not_mem_nil u), rfl⟩
    | tail h e ih =>
      refine ⟨allfree_step _ e ih.1, ?_⟩
      rw [await_step _ e ih.1]
      exact ih.2
  refine ⟨key.1, key.2, fun e => menus_run bs e key.1, ?_, by decide⟩
  intro tg lang d d2 now
  show on_button_run "setregion" d d2 now bs tg lang = _
  unfold on_button_run
  dsimp only
  rw [if_neg (by decide), if_neg (by decide), if_neg (by decide), if_pos rfl]

/-- Witness for C10: in the empty deployment a `setregion` press by user 5
delivers no reply and raises, leaving only the `get_user` row creation. -/
theorem premium_flow_unreachable_witness :
    run initState (Ev.button "setregion" 5 none true true 0) =
      { state := { users := [{ id := 1, telegram_id := 5, region := "Europe",
                               premium := false, partner_id := none, updated_at := 0 }],
                   nextId := 2, awaitRegion := [] },
        sent := [], raised := true } :=
  (premium_flow_unreachable initState Reach.refl).2.2.2.1 5 none true true 0

/-- The Region Resolver contract as the spec words it: a null or empty
hint yields Europe; otherwise the exact hint is looked up in the static
table, then the portion of the hint before the first `-`, and failing both
the default Europe is returned. -/
def resolveSpec : Option String → String
  | none => "Europe"
  | some c =>
    if c = "" then "Europe"
    else
      match langLookup c with
      | some r => r
      | none =>
        match langLookup (primarySubtag c) with
        | some r => r
        | none => "Europe"

/-- C5: `infer_region` is a pure total function agreeing pointwise with
the spec's lookup chain, and takes the documented values on the sample
hints (null, "en-GB", "ja", "xx-unknown", and the empty string). -/
theorem infer_region_spec :
    (∀ hint : Option String, infer_region hint = resolveSpec hint) ∧
    infer_region none = "Europe" ∧
    infer_region (some "") = "Europe" ∧
    infer_region (some "en-GB") = "Europe" ∧
    infer_region (some "ja") = "Asia" ∧
    infer_region (some "xx-unknown") = "Europe" := by
  refine ⟨?_, rfl, by decide, by decide, by decide, by decide⟩
  intro hint
  cases hint with
  | none => rfl
  | some c =>
    unfold infer_region resolveSpec
    dsimp only
    by_cases hc : c = ""
    · rw [if_pos hc, if_pos hc]
    · rw [if_neg hc, if_neg hc]
      cases hl : langLookup c with
      | some r => rfl
      | none =>
        cases hl2 : langLookup (primarySubtag c) with
        | some r => rfl
        | none => rfl

/-! ### Evaluation helpers for single events -/

theorem on_button_find_eval {bs : BotState} {tg : Nat} {lang : Option String}
    {now : Nat} {me : DbUser} (d d2 : Bool)
    (hme : findByTg bs.users tg = some me) :
    on_button "find" d d2 now bs tg lang = findBranch d now bs me := by
  unfold on_button
  dsimp only
  rw [get_user_found hme]
  rw [if_pos rfl]

theorem on_button_stop_eval {bs : BotState} {tg : Nat} {lang : Option String}
    {now : Nat} {me : DbUser} (d d2 : Bool)
    (hme : findByTg bs.users tg = some me) :
    on_button "stop" d d2 now bs tg lang = stopBranch d now bs me := by
  unfold on_button
  dsimp only
  rw [get_user_found hme]
  rw [if_neg (by decide), if_pos rfl]

theorem findBranch_idle_some {bs : BotState} {me p : DbUser} (d : Bool) (now : Nat)
    (hidle : me.partner_id = none) (hsel : selectCandidate bs.users me = some p) :
    findBranch d now bs me =
      if d then
        ({ bs with users :=
             setPartner (setPartner bs.users me.id (some p.id) now) p.id (some me.id) now },
         [{ dest := me.telegram_id, text := "✅ Partner found! Start chatting." },
          { dest := p.telegram_id, text := "✅ Partner found! Start chatting." }])
      else
        (bs, [{ dest := me.telegram_id, text := "✅ Partner found! Start chatting." },
              { dest := me.telegram_id, text := "Partner unreachable. Try again." }]) := by
  unfold findBranch
  rw [hidle]
  rw [hsel]
  rfl

theorem findBranch_idle_none {bs : BotState} {me : DbUser} (d : Bool) (now : Nat)
    (hidle : me.partner_id = none) (hsel : selectCandidate bs.users me = none) :
    findBranch d now bs me =
      (bs, [{ dest := me.telegram_id, text := "⏳ Waiting for a partner in your region…" }]) := by
  unfold findBranch
  rw [hidle]
  rw [hsel]
  rfl

/-- C2: a `find` from an Idle user: when the pool of users with null
partner, same region and different telegram id is non-empty, the selected
candidate is drawn from exactly that pool with minimal last-activity
timestamp, and (when the notification is delivered) both partner fields
are set to each other; when the pool is empty the whole state is left
unchanged and the requester gets the waiting notice. -/
theorem find_selects_oldest (bs : BotState) (tg : Nat) (lang : Option String)
    (d2 : Bool) (now : Nat) (me : DbUser)
    (hw : StructWF bs) (hme : findByTg bs.users tg = some me)
    (hidle : me.partner_id = none) :
    (∀ p : DbUser, selectCandidate bs.users me = some p →
      p ∈ eligible bs.users me ∧
      (∀ u ∈ eligible bs.users me, p.updated_at ≤ u.updated_at) ∧
      (findById (step bs (Ev.button "find" tg lang true d2 now)).1.users me.id).map
          (fun u => u.partner_id) = some (some p.id) ∧
      (findById (step bs (Ev.button "find" tg lang true d2 now)).1.users p.id).map
          (fun u => u.partner_id) = some (some me.id)) ∧
    (selectCandidate bs.users me = none →
      step bs (Ev.button "find" tg lang true d2 now) =
        (bs, [{ dest := tg, text := "⏳ Waiting for a partner in your region…" }])) := by
  have hmem : me ∈ bs.users := (findByTg_mem hme).1
  have htg : me.telegram_id = tg := (findByTg_mem hme).2
  constructor
  · intro p hsel
    obtain ⟨hpmem, hppart, hptg, hpreg⟩ := selectCandidate_mem hsel
    have hab : me.id ≠ p.id := by
      intro he
      have hmp : me = p := eq_of_mem_id hw.1 hmem hpmem he
      rw [hmp] at hptg
      exact hptg rfl
    refine ⟨pickOldest_mem hsel, selectCandidate_min hsel, ?_, ?_⟩
    · show (findById (step bs (Ev.button "find" tg lang true d2 now)).1.users me.id).map
          (fun u => u.partner_id) = some (some p.id)
      have hstep : step bs (Ev.button "find" tg lang true d2 now) =
          ({ bs with users :=
               setPartner (setPartner bs.users me.id (some p.id) now) p.id (some me.id) now },
           [{ dest := me.telegram_id, text := "✅ Partner found! Start chatting." },
            { dest := p.telegram_id, text := "✅ Partner found! Start chatting." }]) := by
        show on_button "find" true d2 now bs tg lang = _
        rw [on_button_find_eval true d2 hme, findBranch_idle_some true now hidle hsel]
        rfl
      rw [hstep]
      dsimp only
      rw [findById_setPartner, findById_setPartner, findById_of_mem hw.1 hmem]
      dsimp only [Option.map]
      rw [spRow_of_ne _ _ _
        (show (spRow me.id (some p.id) now me).id ≠ p.id by rw [spRow_id]; exact hab)]
      rw [spRow_of_eq _ _ _ rfl]
    · show (findById (step bs (Ev.button "find" tg lang true d2 now)).1.users p.id).map
          (fun u => u.partner_id) = some (some me.id)
      have hstep : step bs (Ev.button "find" tg lang true d2 now) =
          ({ bs with users :=
               setPartner (setPartner bs.users me.id (some p.id) now) p.id (some me.id) now },
           [{ dest := me.telegram_id, text := "✅ Partner found! Start chatting." },
            { dest := p.telegram_id, text := "✅ Partner found! Start chatting." }]) := by
        show on_button "find" true d2 now bs tg lang = _
        rw [on_button_find_eval true d2 hme, findBranch_idle_some true now hidle hsel]
        rfl
      rw [hstep]
      dsimp only
      rw [findById_setPartner, findById_setPartner, findById_of_mem hw.1 hpmem]
      dsimp only [Option.map]
      rw [spRow_of_ne _ _ _ (Ne.symm hab)]
      rw [spRow_of_eq _ _ _ rfl]
  · intro hsel
    show on_button "find" true d2 now bs tg lang = _
    rw [on_button_find_eval true d2 hme, findBranch_idle_none true now hidle hsel, htg]

/-- The FIFO demonstration store: three Idle same-region users created in
activity order 10, 20, 30, and a fourth requester. -/
def demoFifo : BotState :=
  { users :=
      [{ id := 1, telegram_id := 101, region := "Asia", premium := false,
         partner_id := none, updated_at := 10 },
       { id := 2, telegram_id := 102, region := "Asia", premium := false,
         partner_id := none, updated_at := 20 },
       { id := 3, telegram_id := 103, region := "Asia", premium := false,
         partner_id := none, updated_at := 30 },
       { id := 4, telegram_id := 104, region := "Asia", premium := false,
         partner_id := none, updated_at := 40 }],
    nextId := 5, awaitRegion := [] }

/-- Witness for C2: in the FIFO store, the `find` press of user 104 pairs
the oldest waiter (id 1) with the requester (id 4). -/
theorem find_selects_oldest_witness :
    (findById (step demoFifo (Ev.button "find" 104 none true true 50)).1.users
        ({ id := 1, telegram_id := 101, region := "Asia", premium := false,
           partner_id := none, updated_at := 10 } : DbUser).id).map
      (fun u => u.partner_id) =
      some (some ({ id := 4, telegram_id := 104, region := "Asia", premium := false,
                    partner_id := none, updated_at := 40 } : DbUser).id) :=
  ((find_selects_oldest demoFifo 104 none true 50
      { id := 4, telegram_id := 104, region := "Asia", premium := false,
        partner_id := none, updated_at := 40 }
      (by decide) (by decide) rfl).1
      { id := 1, telegram_id := 101, region := "Asia", premium := false,
        partner_id := none, updated_at := 10 }
      (by decide)).2.2.2

/-- C3: when `find` creates a pairing but the notification to the new
partner fails, the whole store is rolled back to exactly its pre-`find`
contents and the requester is told the partner is unreachable and to try
again. -/
theorem pairing_rollback_on_unreachable (bs : BotState) (tg : Nat)
    (lang : Option String) (d2 : Bool) (now : Nat) (me p : DbUser)
    (hme : findByTg bs.users tg = some me) (hidle : me.partner_id = none)
    (hsel : selectCandidate bs.users me = some p) :
    step bs (Ev.button "find" tg lang false d2 now) =
      (bs, [{ dest := tg, text := "✅ Partner found! Start chatting." },
            { dest := tg, text := "Partner unreachable. Try again." }]) := by
  have htg : me.telegram_id = tg := (findByTg_mem hme).2
  show on_button "find" false d2 now bs tg lang = _
  rw [on_button_find_eval false d2 hme, findBranch_idle_some false now hidle hsel, htg]
  rfl

/-- Witness for C3: in the two-user Idle store, a `find` by 101 with a
failing notification leaves the store exactly as it was. -/
theorem pairing_rollback_on_unreachable_witness :
    step demoIdle (Ev.button "find" 101 none false true 50) =
      (demoIdle, [{ dest := 101, text := "✅ Partner found! Start chatting." },
                  { dest := 101, text := "Partner unreachable. Try again." }]) :=
  pairing_rollback_on_unreachable demoIdle 101 none true 50
    { id := 1, telegram_id := 101, region := "Asia", premium := false,
      partner_id := none, updated_at := 10 }
    { id := 2, telegram_id := 102, region := "Asia", premium := false,
      partner_id := none, updated_at := 20 }
    (by decide) rfl (by decide)

/-- C6 (code bug): in the claimed scenario — an existing Paired user
whose partner row is present sends a text whose forwarding would fail —
the program leaves the whole state, in particular both partner fields,
unchanged, but it never informs the sender: `on_text` raises
DetachedInstanceError at the `user.partner_id` read on the detached
expired instance, so the "Delivery failed. Try Next." reply written in
the handler is unreachable. -/
theorem relay_failure_crashes_before_reply (bs : BotState) (tg : Nat)
    (lang : Option String) (txt : String) (now : Nat) (me p : DbUser) (pid : Nat)
    (hme : findByTg bs.users tg = some me) (hpid : me.partner_id = some pid)
    (hpart : findById bs.users pid = some p) :
    run bs (Ev.text tg lang txt false now) =
      { state := bs, sent := [], raised := true } := by
  show on_text_run false now bs tg lang txt = _
  unfold on_text_run
  rw [get_user_found hme]

/-- A paired two-user store for the relay scenarios. -/
def demoPaired : BotState :=
  { users :=
      [{ id := 1, telegram_id := 101, region := "Asia", premium := false,
         partner_id := some 2, updated_at := 10 },
       { id := 2, telegram_id := 102, region := "Asia", premium := false,
         partner_id := some 1, updated_at := 20 }],
    nextId := 3, awaitRegion := [] }

/-- Witness for C6: the failing relay from user 101 changes nothing and
delivers nothing. -/
theorem relay_failure_crashes_before_reply_witness :
    run demoPaired (Ev.text 101 none "hello" false 50) =
      { state := demoPaired, sent := [], raised := true } :=
  relay_failure_crashes_before_reply demoPaired 101 none "hello" 50
    { id := 1, telegram_id := 101, region := "Asia", premium := false,
      partner_id := some 2, updated_at := 10 }
    { id := 2, telegram_id := 102, region := "Asia", premium := false,
      partner_id := some 1, updated_at := 20 }
    2 (by decide) rfl (by decide)

/-- A store with a dangling partner pointer (user 100 points at the
non-existent row 99). -/
def demoDangling : BotState :=
  { users :=
      [{ id := 1, telegram_id := 100, region := "Europe", premium := false,
         partner_id := some 99, updated_at := 0 }],
    nextId := 2, awaitRegion := [] }

/-- Counterexample to C7 as stated: after the dangling user's text their
partner field is still `some 99` — no auto-heal unlink — and no prompt is
delivered either: the handler raises at the `user.partner_id` read. -/
theorem dangling_partner_no_unlink_counterexample :
    (findByTg (run demoDangling (Ev.text 100 none "hi" true 5)).state.users 100).map
        (fun u => u.partner_id) = some (some 99) ∧
    (run demoDangling (Ev.text 100 none "hi" true 5)).sent = [] ∧
    (run demoDangling (Ev.text 100 none "hi" true 5)).raised = true := by
  decide

/-- C7 (amended): a text from a user with a truthy partner pointer whose
partner row is missing does not auto-heal: the requester's partner field
and all other state are left unchanged, and no prompt is delivered — the
handler raises DetachedInstanceError at the `user.partner_id` read before
the "Partner missing. Press Find." reply written in the source can run. -/
theorem dangling_partner_no_heal_no_prompt (bs : BotState) (tg : Nat)
    (lang : Option String) (txt : String) (d : Bool) (now : Nat)
    (me : DbUser) (pid : Nat)
    (hme : findByTg bs.users tg = some me) (hpid : me.partner_id = some pid)
    (hmiss : findById bs.users pid = none) :
    run bs (Ev.text tg lang txt d now) =
      { state := bs, sent := [], raised := true } := by
  show on_text_run d now bs tg lang txt = _
  unfold on_text_run
  rw [get_user_found hme]

/-- Witness for the amended C7 on the dangling store. -/
theorem dangling_partner_no_heal_no_prompt_witness :
    run demoDangling (Ev.text 100 none "hi" true 5) =
      { state := demoDangling, sent := [], raised := true } :=
  dangling_partner_no_heal_no_prompt demoDangling 100 none "hi" true 5
    { id := 1, telegram_id := 100, region := "Europe", premium := false,
      partner_id := some 99, updated_at := 0 }
    99 (by decide) rfl (by decide)

/-- Counterexample to C8 as stated: `get_or_create_user` (src/utils.py)
persists the raw hint "ja" as the region of the created user, while the
Region Resolver maps "ja" to "Asia" — the created region is not the
resolver's output. -/
theorem get_or_create_user_region_counterexample :
    (get_or_create_user [] 1 7 (some "ja") 0).2.2.region = "ja" ∧
    infer_region (some "ja") = "Asia" ∧
    ("ja" : String) ≠ "Asia" := by
  decide

/-- C8 (amended): with no existing row both helpers create and persist a
user with `premium = false` and a null partner and return it, and with an
existing row both return it with the store unchanged; but only bot.py's
`get_user` sets the region to the Region Resolver's output —
`get_or_create_user` (src/utils.py) stores the raw locale hint, or
"global" when the hint is falsy. -/
theorem getOrCreate_behavior (bs : BotState) (st : List DbUser) (n tg : Nat)
    (lang : Option String) (now : Nat) :
    (∀ u : DbUser, findByTg bs.users tg = some u → get_user bs tg lang now = (bs, u)) ∧
    (findByTg bs.users tg = none →
      get_user bs tg lang now =
        ({ bs with
            users := bs.users ++
              [{ id := bs.nextId, telegram_id := tg, region := infer_region lang,
                 premium := false, partner_id := none, updated_at := now }],
            nextId := bs.nextId + 1 },
         { id := bs.nextId, telegram_id := tg, region := infer_region lang,
           premium := false, partner_id := none, updated_at := now })) ∧
    (∀ u : DbUser, findByTg st tg = some u →
      get_or_create_user st n tg lang now = (st, n, u)) ∧
    (findByTg st tg = none →
      get_or_create_user st n tg lang now =
        (st ++ [{ id := n, telegram_id := tg,
                  region := (match lang with
                    | none => "global"
                    | some c => if c = "" then "global" else c),
                  premium := false, partner_id := none, updated_at := now }],
         n + 1,
         { id := n, telegram_id := tg,
           region := (match lang with
             | none => "global"
             | some c => if c = "" then "global" else c),
           premium := false, partner_id := none, updated_at := now })) := by
  refine ⟨?_, ?_, ?_, ?_⟩
  · intro u h
    exact get_user_found h
  · intro h
    exact get_user_absent h
  · intro u h
    unfold get_or_create_user
    rw [h]
  · intro h
    unfold get_or_create_user
    rw [h]

/-- Witness for C8 (amended): an existing row is returned unchanged by
`get_user`, and `get_or_create_user` creates a row whose region is the raw
hint. -/
theorem getOrCreate_behavior_witness :
    get_user demoIdle 101 (some "ja") 99 =
      (demoIdle, { id := 1, telegram_id := 101, region := "Asia", premium := false,
                   partner_id := none, updated_at := 10 }) ∧
    get_or_create_user [] 1 7 (some "ja") 0 =
      ([{ id := 1, telegram_id := 7, region := "ja", premium := false,
          partner_id := none, updated_at := 0 }], 2,
       { id := 1, telegram_id := 7, region := "ja", premium := false,
         partner_id := none, updated_at := 0 }) :=
  ⟨(getOrCreate_behavior demoIdle [] 1 101 (some "ja") 99).1 _ (by decide),
   (getOrCreate_behavior demoIdle [] 1 7 (some "ja") 0).2.2.2 (by decide)⟩

theorem stopBranch_idle {bs : BotState} {me : DbUser} {d : Bool} {now : Nat}
    (hidle : me.partner_id = none) :
    stopBranch d now bs me =
      (bs, [{ dest := me.telegram_id, text := "You are not in a chat." }]) := by
  unfold stopBranch
  rw [hidle]
  rfl

/-- C9: `stop` is idempotent on an Idle user: the first press yields
exactly the "You are not in a chat." notice with the state unchanged, and
a second press yields the same notice with the state still unchanged. -/
theorem stop_idempotent_on_idle (bs : BotState) (tg : Nat)
    (lang lang2 : Option String) (d d2 d3 d4 : Bool) (now now2 : Nat) (me : DbUser)
    (hme : findByTg bs.users tg = some me) (hidle : me.partner_id = none) :
    step bs (Ev.button "stop" tg lang d d2 now) =
      (bs, [{ dest := tg, text := "You are not in a chat." }]) ∧
    step (step bs (Ev.button "stop" tg lang d d2 now)).1
        (Ev.button "stop" tg lang2 d3 d4 now2) =
      (bs, [{ dest := tg, text := "You are not in a chat." }]) := by
  have htg : me.telegram_id = tg := (findByTg_mem hme).2
  have h1 : step bs (Ev.button "stop" tg lang d d2 now) =
      (bs, [{ dest := tg, text := "You are not in a chat." }]) := by
    show on_button "stop" d d2 now bs tg lang = _
    rw [on_button_stop_eval d d2 hme, stopBranch_idle hidle, htg]
  refine ⟨h1, ?_⟩
  have hfst : (step bs (Ev.button "stop" tg lang d d2 now)).1 = bs := by rw [h1]
  rw [hfst]
  show on_button "stop" d3 d4 now2 bs tg lang2 = _
  rw [on_button_stop_eval d3 d4 hme, stopBranch_idle hidle, htg]

/-- Witness for C9 on the two-user Idle store. -/
theorem stop_idempotent_on_idle_witness :
    step demoIdle (Ev.button "stop" 101 none true true 50) =
      (demoIdle, [{ dest := 101, text := "You are not in a chat." }]) ∧
    step (step demoIdle (Ev.button "stop" 101 none true true 50)).1
        (Ev.button "stop" 101 none false true 60) =
      (demoIdle, [{ dest := 101, text := "You are not in a chat." }]) :=
  stop_idempotent_on_idle demoIdle 101 none none true true false true 50 60
    { id := 1, telegram_id := 101, region := "Asia", premium := false,
      partner_id := none, updated_at := 10 }
    (by decide) rfl

end AnonBot
